import Mathlib

/-!
Shallow embedding of the go-rsync-backup tool.

The Go sources model a backup orchestrator: configuration loading
(`config.go`), and the run lifecycle (lock, disk-space guard, binary
resolution, argument assembly, external process, verification,
finalization, pointer republish, retention pruning).  Pure Go functions
become Lean functions; effectful steps are modelled by an explicit
environment record (one oracle per probe result) and an effect trace.
Go `int` is modelled as `Int`; Go strings as Lean `String`.  Go compares
strings byte-wise; on UTF-8 data this coincides with the code-point
lexicographic order, which is modelled here by an executable comparison
on `String.data`.  String helpers are written by structural recursion on
`String.data` so that every definition evaluates inside the kernel.
-/

/-- Boolean lexicographic strict order on character lists: the order Go
uses to compare strings (byte-wise, which equals code-point order on
UTF-8). -/
def lexLt : List Char → List Char → Bool
  | [], [] => false
  | [], _ :: _ => true
  | _ :: _, [] => false
  | a :: as, b :: bs => if a < b then true else if b < a then false else lexLt as bs

/-- Model of Go `x < y` on strings. -/
def strLt (x y : String) : Bool := lexLt x.data y.data

/-- Non-strict companion of `strLt`, used to state sortedness. -/
def strLe (x y : String) : Prop := strLt y x = false

/-- Model of Go `strings.Contains(s, c)` for a single-character
pattern. -/
def strContainsChar (s : String) (c : Char) : Bool :=
  s.data.any (fun d => d = c)

/-- Split a character list at every character satisfying `p`, keeping
empty pieces: the semantics of Go `strings.Split` for one-character
separators. -/
def splitWhen (p : Char → Bool) : List Char → List (List Char)
  | [] => [[]]
  | c :: rest =>
    if p c then [] :: splitWhen p rest
    else
      match splitWhen p rest with
      | [] => [[c]]
      | h :: t => (c :: h) :: t

/-- Model of Go `strings.Fields`: maximal runs of non-whitespace
characters. -/
def goFieldsL (l : List Char) : List (List Char) :=
  (splitWhen (fun c => c.isWhitespace) l).filter (fun x => x ≠ [])

/-- Model of Go `strings.TrimSuffix(s, "%")` on a character list. -/
def trimPctL (l : List Char) : List Char :=
  if l.getLast? = some '%' then l.dropLast else l

/-- Value of a list of decimal digit characters. -/
def digitsToNat (l : List Char) : Nat :=
  l.foldl (fun n c => n * 10 + (c.toNat - 48)) 0

/-- Parse a non-empty all-digit character list; `none` otherwise. -/
def parseDigits (l : List Char) : Option Nat :=
  if l ≠ [] ∧ l.all (·.isDigit) then some (digitsToNat l) else none

/-- Model of Go `strconv.Atoi`: optional sign, decimal digits, 64-bit
range (out-of-range input is an error in Go). -/
def goAtoi (s : String) : Option Int :=
  match s.data with
  | '+' :: rest =>
    (parseDigits rest).bind fun n =>
      if n ≤ 9223372036854775807 then some (Int.ofNat n) else none
  | '-' :: rest =>
    (parseDigits rest).bind fun n =>
      if n ≤ 9223372036854775808 then some (-(n : Int)) else none
  | l =>
    (parseDigits l).bind fun n =>
      if n ≤ 9223372036854775807 then some (Int.ofNat n) else none

/-- Model of Go `strings.HasSuffix(s, "_INCOMPLETE")`. -/
def hasIncompleteSuffix (s : String) : Bool :=
  "_INCOMPLETE".data.isSuffixOf s.data

/-- Model of Go `filepath.Join(a, b)` for a cleaned, non-empty first
component, as used throughout the tool. -/
def goJoin (a b : String) : String := a ++ "/" ++ b

/-- Mirror of the Go `Config` struct (config.go lines 9-21). -/
structure Config where
  source : String
  destination : String
  keep : Int
  cleanupAtPercent : Int
  excludeList : String
  logFile : String
  lockFile : String
  dryRun : Bool
  forceSystemRsync : Bool
  showProgress : Bool
  rsyncBin : String
deriving DecidableEq

/-- Mirror of `Backup.validateConfig` (part_000 lines 78-92): returns the
error message, or `none` on success. -/
def validateConfig (c : Config) : Option String :=
  if c.source = "" then some "source path cannot be empty"
  else if c.destination = "" then some "destination path cannot be empty"
  else if c.keep < 1 then some "keep must be at least 1"
  else if c.cleanupAtPercent < 50 ∨ 95 < c.cleanupAtPercent then
    some "cleanup_at_percent must be between 50-95"
  else none

/-- Mirror of `Backup.isSSHPath` (part_000 lines 403-405):
`strings.Contains(path, "@") && strings.Contains(path, ":")`; both
markers are single ASCII characters. -/
def isSSHPath (path : String) : Bool :=
  strContainsChar path '@' && strContainsChar path ':'

/-- Outcome of the disk-space guard, with the code's distinct failure
messages mapped to distinct constructors (part_000 lines 94-127). -/
inductive DiskStatus where
  | skipped
  | passed (usage : Int)
  | cmdFailed
  | malformed
  | exceeded (usage : Int)
deriving DecidableEq

/-- Mirror of `Backup.checkDiskSpace` (part_000 lines 94-127).  The
result of the `df -h` subprocess is an oracle input: `none` models a
command failure, `some out` its captured output.  `skipped` and
`passed` both map to the Go `nil` return. -/
def checkDiskSpace (dest : String) (threshold : Int) (dfOut : Option String) :
    DiskStatus :=
  if isSSHPath dest then .skipped
  else
    match dfOut with
    | none => .cmdFailed
    | some out =>
      match splitWhen (fun c => c = '\n') out.data with
      | _ :: line1 :: _ =>
        match (goFieldsL line1).get? 4 with
        | none => .malformed
        | some f4 =>
          match goAtoi ⟨trimPctL f4⟩ with
          | none => .malformed
          | some usage =>
            if threshold ≤ usage then .exceeded usage else .passed usage
      | _ => .malformed

/-- Claim-side decomposition used to state C8: the percentage-used field
of a usage report (second line, fifth whitespace-delimited field, `%`
suffix stripped, parsed as a decimal integer). -/
def parsedUsagePct (out : String) : Option Int :=
  match splitWhen (fun c => c = '\n') out.data with
  | _ :: line1 :: _ =>
    match (goFieldsL line1).get? 4 with
    | none => none
    | some f4 => goAtoi ⟨trimPctL f4⟩
  | _ => none

/-- Directory entry as observed through Go `os.ReadDir`: a name and
whether the entry is a directory (symlinks are not followed, so the
`latest` symlink reports `isDir = false`). -/
structure FsEntry where
  name : String
  isDir : Bool
deriving DecidableEq

/-- Candidate snapshots of `Backup.cleanupOldBackups` (part_000 lines
560-565): child directories other than `latest` whose name does not end
in `_INCOMPLETE`, in listing order. -/
def backupCandidates (entries : List FsEntry) : List String :=
  (entries.filter
    (fun e => e.isDir && !(e.name == "latest") && !(hasIncompleteSuffix e.name))).map
    (fun e => e.name)

/-- Inner loop of the sort in `Backup.cleanupOldBackups` (part_000 lines
573-579) for a fixed outer index: threads the value currently at the
outer slot through the remaining slots, swapping whenever the outer
value is lexically greater. -/
def innerLoop (x : String) : List String → String × List String
  | [] => (x, [])
  | y :: ys =>
    if strLt y x then ((innerLoop y ys).1, x :: (innerLoop y ys).2)
    else ((innerLoop x ys).1, y :: (innerLoop x ys).2)

/-- Fuel-indexed form of the double loop of `Backup.cleanupOldBackups`
(part_000 lines 573-579); the loop runs one outer round per element, so
the list length is always enough fuel. -/
def selSortFuel : Nat → List String → List String
  | _, [] => []
  | 0, _ :: _ => []
  | fuel + 1, x :: xs => (innerLoop x xs).1 :: selSortFuel fuel (innerLoop x xs).2

/-- The sort performed by `Backup.cleanupOldBackups` (part_000 lines
571-579): selection sort, ascending in the lexical order. -/
def selSort (l : List String) : List String := selSortFuel l.length l

/-- Mirror of the deletion set of `Backup.cleanupOldBackups` (part_000
lines 550-592): the names the prune pass removes, in removal order. -/
def cleanupRemoved (keep : Int) (entries : List FsEntry) : List String :=
  if keep ≤ 0 then []
  else
    if ((backupCandidates entries).length : Int) ≤ keep then []
    else (selSort (backupCandidates entries)).take
      ((backupCandidates entries).length - keep.toNat)

/-- Candidates that a prune pass leaves in place: the complement of
`cleanupRemoved` inside the sorted candidate list. -/
def cleanupSurvivors (keep : Int) (entries : List FsEntry) : List String :=
  if keep ≤ 0 then backupCandidates entries
  else
    if ((backupCandidates entries).length : Int) ≤ keep then backupCandidates entries
    else (selSort (backupCandidates entries)).drop
      ((backupCandidates entries).length - keep.toNat)

/-- Components of a run start time as consumed by the Go time layout
`MST_2006-01-02_15.04.05` (part_000 line 69): a timezone abbreviation
plus local clock fields. -/
structure RunTime where
  tz : String
  year : Nat
  month : Nat
  day : Nat
  hour : Nat
  minute : Nat
  second : Nat
deriving DecidableEq

/-- Zero-padded two-digit rendering, as the layout tokens `01 02 15 04
05` produce. -/
def pad2 (n : Nat) : String :=
  if n < 10 then "0" ++ toString n else toString n

/-- Zero-padded four-digit rendering, as the layout token `2006`
produces. -/
def pad4 (n : Nat) : String :=
  if n < 10 then "000" ++ toString n
  else if n < 100 then "00" ++ toString n
  else if n < 1000 then "0" ++ toString n
  else toString n

/-- Mirror of the timestamp generated in `NewBackup` (part_000 line 69):
`time.Now().Format("MST_2006-01-02_15.04.05")` — the timezone
abbreviation, then the zero-padded local date and time. -/
def backupTimestamp (t : RunTime) : String :=
  t.tz ++ "_" ++ pad4 t.year ++ "-" ++ pad2 t.month ++ "-" ++ pad2 t.day ++ "_" ++
    pad2 t.hour ++ "." ++ pad2 t.minute ++ "." ++ pad2 t.second

/-- Mixed-radix key of the local clock fields; for two instants observed
in the same timezone region (also across a daylight-saving switch, where
summer local clocks run ahead) the key order agrees with chronological
order. -/
def chronoKey (t : RunTime) : Nat :=
  ((((t.year * 13 + t.month) * 32 + t.day) * 24 + t.hour) * 60 + t.minute) * 60 + t.second

/-- Chronological order of run start times. -/
def chronoBefore (a b : RunTime) : Prop := chronoKey a < chronoKey b

/-- Model of the ignored-error use of `strconv.Atoi` in
`Backup.isOldRsync` (part_000 lines 387-389): Go's `Atoi` returns a
value even when it also returns an error the code discards — 0 for a
syntactically invalid component, and the saturated MaxInt64 (positive)
or MinInt64 (negative) for a syntactically valid component outside the
64-bit range. -/
def atoiIgnoringError (s : String) : Int :=
  match s.data with
  | '+' :: rest =>
    match parseDigits rest with
    | none => 0
    | some n => if n ≤ 9223372036854775807 then (n : Int) else 9223372036854775807
  | '-' :: rest =>
    match parseDigits rest with
    | none => 0
    | some n => if n ≤ 9223372036854775808 then -(n : Int) else -9223372036854775808
  | l =>
    match parseDigits l with
    | none => 0
    | some n => if n ≤ 9223372036854775807 then (n : Int) else 9223372036854775807

/-- Two's-complement wrap of an unbounded integer into the int64 range,
the semantics of every Go `int` arithmetic operation on the 64-bit
platforms this tool targets. -/
def wrap64 (n : Int) : Int :=
  (n + 9223372036854775808) % 18446744073709551616 - 9223372036854775808

/-- Mirror of `Backup.isOldRsync` (part_000 lines 381-393): split the
version string on `.`; fewer than three parts is old; otherwise compare
`major*10000 + minor*100 + patch` against 30200, with every Go `int`
multiplication and addition wrapping in int64. -/
def isOldRsync (version : String) : Bool :=
  match splitWhen (fun c => c = '.') version.data with
  | a :: b :: c :: _ =>
    decide (wrap64 (wrap64 (wrap64 (atoiIgnoringError ⟨a⟩ * 10000) +
      wrap64 (atoiIgnoringError ⟨b⟩ * 100)) + atoiIgnoringError ⟨c⟩) < 30200)
  | _ => true

/-- Error message of the incompatible-binary failure in
`Backup.findRsync` (part_000 line 361). -/
def incompatibleRsyncMsg : String :=
  "homebrew rsync not found. The built-in macOS rsync is too old and lacks proper macOS support. Please install Homebrew rsync with: brew install rsync"

/-- The binary selected by the probe loop of `Backup.findRsync`
(part_000 lines 340-351): the first existing path of the fixed ordered
list, or the prior `RsyncBin` value when none exists. -/
def resolvedBin (rsyncBin0 : String) (homebrewArm usrLocal usrBin : Bool) : String :=
  if homebrewArm then "/opt/homebrew/bin/rsync"
  else if usrLocal then "/usr/local/bin/rsync"
  else if usrBin then "/usr/bin/rsync"
  else rsyncBin0

/-- Mirror of `Backup.findRsync` (part_000 lines 333-367).  `rsyncBin0`
is the `RsyncBin` field before resolution; the three booleans are the
`os.Stat` probe results for the fixed path list, in its order; `version`
is the oracle for `getRsyncVersion`: `none` when the version command
fails, `some v` with the first `\d+\.\d+\.\d+` match of its output
otherwise (the empty string when the output has no such match). -/
def findRsync (force : Bool) (rsyncBin0 : String)
    (homebrewArm usrLocal usrBin : Bool) (version : Option String) :
    Except String String :=
  if force then .ok "/usr/bin/rsync"
  else
    let bin := resolvedBin rsyncBin0 homebrewArm usrLocal usrBin
    if bin = "" then .error "no rsync binary found"
    else if bin = "/usr/bin/rsync" && !force then
      match version with
      | some v => if isOldRsync v then .error incompatibleRsyncMsg else .ok bin
      | none => .ok bin
    else .ok bin

/-- Mirror of the Go global `RsyncBaseArgs` (the variables.go document
embedded in src/README.md): the fixed base flag set — archive mode,
atime preservation, numeric ids, hard links, ACLs, partial-transfer
retention, itemized changes, deletion of extraneous and excluded
entries, and statistics output (`-X` is commented out in the source). -/
def RsyncBaseArgs : List String :=
  ["-a", "-U", "--numeric-ids", "-H", "-A",
   "--partial", "--itemize-changes", "--delete", "--delete-excluded", "--stats"]

/-- Mirror of the Go global `RsyncSSHArgs` (the variables.go document
embedded in src/README.md): compression at level 6 plus an SSH transport
invocation with strict host-key checking disabled. -/
def RsyncSSHArgs : List String :=
  ["-z", "--compress-level=6", "-e",
   "ssh -o StrictHostKeyChecking=no -o UserKnownHostsFile=/dev/null"]

/-- Mirror of the Go global `RsyncMacOSArgs` (the variables.go document
embedded in src/README.md): executability and file-flag preservation. -/
def RsyncMacOSArgs : List String :=
  ["-E", "--fileflags"]

/-- Inputs that the argument assembly of `Backup.runRsync` reads: the
configuration, the version-probe result, `runtime.GOOS`, the resolved
last-backup name, the `os.Stat` results for the last-backup path and the
exclusion file, and the run's generated timestamp (which fixes the
in-progress snapshot path chosen in `NewBackup`). -/
structure ArgsInput where
  config : Config
  version : Option String
  goos : String
  lastBackup : String
  lastBackupPathExists : Bool
  excludeListExists : Bool
  timestamp : String
deriving DecidableEq

/-- Mirror of the argument assembly in `Backup.runRsync` (part_000 lines
407-461): sequential appends to the base vector, ending with the
slash-terminated source and the in-progress snapshot path. -/
def buildRsyncArgs (i : ArgsInput) : List String :=
  let args := RsyncBaseArgs
  let args := if isSSHPath i.config.source || isSSHPath i.config.destination then
      args ++ RsyncSSHArgs else args
  let args := if i.config.showProgress then args ++ ["--progress"] else args
  let args := match i.version with
    | some v =>
      if i.goos == "darwin" && !isOldRsync v then args ++ RsyncMacOSArgs else args
    | none => args
  let args := if !(i.lastBackup == "(none)") && i.lastBackupPathExists then
      args ++ ["--link-dest=" ++ goJoin i.config.destination i.lastBackup] else args
  let args := if i.excludeListExists then
      args ++ ["--exclude-from=" ++ i.config.excludeList] else args
  let args := if i.config.dryRun then args ++ ["--dry-run"] else args
  args ++ [i.config.source ++ "/", goJoin i.config.destination (i.timestamp ++ "_INCOMPLETE")]

/-- One attempt of a Go regexp of the shape `pre([0-9,]+)suf` at the
start of `text`: the group is the maximal run of digits and commas after
`pre`, and must be non-empty and followed by `suf`.  For the patterns of
`Backup.parseTransferredGB` the maximal run is the only viable one,
because each non-empty `suf` starts with a space, which is outside the
character class, so no shorter run can be followed by `suf`. -/
def matchAt (pre suf text : List Char) : Option (List Char) :=
  if pre.isPrefixOf text then
    if (text.drop pre.length).takeWhile (fun c => c.isDigit || c = ',') ≠ [] ∧
        suf.isPrefixOf ((text.drop pre.length).drop
          ((text.drop pre.length).takeWhile (fun c => c.isDigit || c = ',')).length) then
      some ((text.drop pre.length).takeWhile (fun c => c.isDigit || c = ','))
    else none
  else none

/-- Leftmost match of `pre([0-9,]+)suf` in a text, as Go
`regexp.FindStringSubmatch` returns it: the first position whose attempt
succeeds, scanning left to right. -/
def findGroup (pre suf : List Char) : List Char → Option (List Char)
  | [] => matchAt pre suf []
  | c :: rest =>
    match matchAt pre suf (c :: rest) with
    | some run => some run
    | none => findGroup pre suf rest

/-- One iteration of the pattern loop in `Backup.parseTransferredGB`
(part_000 lines 511-521): on a match, strip commas and parse a 64-bit
integer; a group that fails to parse lets the loop continue, exactly as
in the source. -/
def tryPattern (pre suf t : String) : Option Nat :=
  match findGroup pre.data suf.data t.data with
  | none => none
  | some run =>
    match parseDigits (run.filter (fun c => c ≠ ',')) with
    | none => none
    | some n =>
      if n ≤ 9223372036854775807 then some n else none

/-- The byte count that the pattern loop of `Backup.parseTransferredGB`
(part_000 lines 503-523) settles on: three patterns tried in order,
`none` when no pattern yields a figure. -/
def parseTransferredBytes (statsOutput : String) : Option Nat :=
  match tryPattern "Total transferred file size: " " bytes" statsOutput with
  | some n => some n
  | none =>
    match tryPattern "sent " " bytes" statsOutput with
    | some n => some n
    | none => tryPattern "total size is " "" statsOutput

/-- Mirror of `Backup.parseTransferredGB` (part_000 lines 503-523): the
byte figure divided by 1024³, 0 when no pattern matched.  The Go code
divides in binary64 floating point; the division is modelled over ℚ
(the figures the claims evaluate are exact powers-of-two quotients,
where binary64 division is exact). -/
def parseTransferredGB (statsOutput : String) : ℚ :=
  match parseTransferredBytes statsOutput with
  | some n => (n : ℚ) / 1073741824
  | none => 0

/-- Mirror of the Go `ConfigFile` struct (config.go lines 23-34): the
fields a parseable configuration document provides. -/
structure ConfigFileData where
  source : String
  destination : String
  keep : Int
  cleanupAtPercent : Int
  excludeList : String
  logFile : String
  lockFile : String
  dryRun : Bool
  forceSystemRsync : Bool
  showProgress : Bool
deriving DecidableEq

/-- The field-by-field overlay of `LoadConfig` (config.go lines 44-53):
every `ConfigFile` field overwrites the default; `RsyncBin` is not in
the file format and is kept. -/
def applyConfigFile (base : Config) (cf : ConfigFileData) : Config :=
  { base with
    source := cf.source
    destination := cf.destination
    keep := cf.keep
    cleanupAtPercent := cf.cleanupAtPercent
    excludeList := cf.excludeList
    lockFile := cf.lockFile
    logFile := cf.logFile
    dryRun := cf.dryRun
    forceSystemRsync := cf.forceSystemRsync
    showProgress := cf.showProgress }

/-- Mirror of the Go global `DefaultConfig` (the variables.go document
embedded in src/README.md). -/
def DefaultConfig : Config :=
  { source := "/Volumes/external-0"
    destination := "/Volumes/backup-0/backups"
    keep := 30
    cleanupAtPercent := 95
    excludeList := "/Volumes/external-0/.backup-exclude.list"
    logFile := "/Volumes/backup-0/backups/backup.log"
    lockFile := "/tmp/backupRunningLock"
    dryRun := false
    forceSystemRsync := false
    showProgress := true
    rsyncBin := "" }

/-- The configuration `LoadConfig` holds just before validation
(config.go lines 37-56).  `defaultC` stands for the global
`DefaultConfig`; it is taken as a parameter so that the theorems
quantify over it, which subsumes the concrete value.  `fileRead` is the
oracle for the read-then-unmarshal sequence: `none` models an unreadable
file, `some none` a file that fails to parse, `some (some cf)` a parsed
document — the first two silently leave the default in place. -/
def loadedBase (defaultC : Config) (filename : String)
    (fileRead : Option (Option ConfigFileData)) : Config :=
  if filename ≠ "" then
    match fileRead with
    | some (some cf) => applyConfigFile defaultC cf
    | _ => defaultC
  else defaultC

/-- The silent clamping of `LoadConfig` (config.go lines 62-67): a
retention count below 1 becomes 7, an out-of-bounds threshold becomes
90; nothing else changes. -/
def clampConfig (c : Config) : Config :=
  let c1 := if c.keep < 1 then { c with keep := 7 } else c
  if c1.cleanupAtPercent < 50 ∨ 95 < c1.cleanupAtPercent then
    { c1 with cleanupAtPercent := 90 }
  else c1

/-- Mirror of `LoadConfig` (config.go lines 36-70): overlay, then the
empty-path check, then the silent clamping of `Keep` and
`CleanupAtPercent`. -/
def LoadConfig (defaultC : Config) (filename : String)
    (fileRead : Option (Option ConfigFileData)) : Except String Config :=
  if (loadedBase defaultC filename fileRead).source = "" ∨
      (loadedBase defaultC filename fileRead).destination = "" then
    .error "source and destination paths are required"
  else .ok (clampConfig (loadedBase defaultC filename fileRead))

/-- Model of Go `filepath.Base`: strip trailing separators, then keep the
final path component ("." for the empty path, "/" when everything is a
separator). -/
def goBase (p : String) : String :=
  if p = "" then "."
  else
    if (p.data.reverse.dropWhile (fun c => c = '/')) = [] then "/"
    else ⟨((p.data.reverse.dropWhile (fun c => c = '/')).takeWhile
      (fun c => c ≠ '/')).reverse⟩

/-- Mirror of `Backup.getLastBackup` (part_000 lines 395-401): the base
name of the pointer's readlink target, or `(none)` when the readlink
fails (pointer absent). -/
def getLastBackup (latestTarget : Option String) : String :=
  match latestTarget with
  | none => "(none)"
  | some t => goBase t

/-- Observable filesystem mutations and process actions of one run, in
program order.  Effects are recorded when the corresponding system call
succeeds (for the lock, log and rsync steps the attempt itself is the
observable event). -/
inductive Effect where
  | mkdirDest
  | createLock
  | removeLock
  | openLog
  | runRsync (args : List String)
  | removeLatest
  | symlinkLatest (target : String)
  | renameSnap (src : String) (dst : String)
  | removeBackup (name : String)
deriving DecidableEq

/-- Oracle environment for one run: the outcome of every probe and
effectful step the orchestrator consults, each an independent input.
`version` is shared by the resolution-time and assembly-time calls of
`getRsyncVersion`, which query the same binary. -/
structure Env where
  mkdirDestOk : Bool
  sourceExists : Bool
  dfSourceOk : Bool
  dfDestOk : Bool
  dfOut : Option String
  lockPreExists : Bool
  lockCreateOk : Bool
  logSetupOk : Bool
  homebrewArmExists : Bool
  usrLocalExists : Bool
  usrBinExists : Bool
  version : Option String
  goos : String
  latestTarget : Option String
  lastBackupPathExists : Bool
  excludeListExists : Bool
  rsyncOk : Bool
  snapDirRead : Option Nat
  renameOk : Bool
  symlinkOk : Bool
  destEntries : Option (List FsEntry)
deriving DecidableEq

/-- Mirror of `Backup.validatePaths` (part_000 lines 229-250): create
the destination, then probe the source and both mounts.  The `mkdirDest`
effect is recorded on successful creation. -/
def validatePathsM (c : Config) (env : Env) : Option String × List Effect :=
  if !env.mkdirDestOk then (some "failed to create destination", [])
  else if !env.sourceExists then
    (some ("source does not exist: " ++ c.source), [Effect.mkdirDest])
  else if !env.dfSourceOk then
    (some ("source path " ++ c.source ++ " is not accessible or mounted"), [Effect.mkdirDest])
  else if !env.dfDestOk then
    (some ("destination path " ++ c.destination ++ " is not accessible or mounted"),
      [Effect.mkdirDest])
  else (none, [Effect.mkdirDest])

/-- Error mapping of `Backup.checkDiskSpace` results: the statuses the
Go function reports as a non-nil error. -/
def diskErrMsg (s : DiskStatus) : Option String :=
  match s with
  | .skipped => none
  | .passed _ => none
  | .cmdFailed => some "failed to check disk space"
  | .malformed => some "unexpected df output"
  | .exceeded _ => some "disk usage exceeds cleanup threshold"

/-- Mirror of `Backup.createLock` (part_000 lines 252-260): one atomic
`os.Mkdir`; an existing directory means another run holds the lock. -/
def createLockM (c : Config) (env : Env) : Option String × List Effect :=
  if env.lockPreExists then
    (some ("backup already running (lock: " ++ c.lockFile ++ ")"), [])
  else if !env.lockCreateOk then (some "failed to create lock", [])
  else (none, [Effect.createLock])

/-- Mirror of `Backup.verifyBackup` (part_000 lines 129-151): skipped on
dry runs; otherwise the snapshot directory must be present, readable and
non-empty.  `snapDirRead` collapses the stat/read probes: `none` for a
missing or unreadable directory, `some n` for a directory with `n`
entries. -/
def verifyBackupM (c : Config) (env : Env) : Option String :=
  if c.dryRun then none
  else
    match env.snapDirRead with
    | none => some "backup directory not created or unreadable"
    | some 0 => some "backup directory is empty"
    | some _ => none

/-- Mirror of `Backup.finalizeBackup` (part_000 lines 525-540): skipped
on dry runs; otherwise one rename from the incomplete path to the final
name. -/
def finalizeBackupM (c : Config) (ts : String) (env : Env) :
    Option String × List Effect :=
  if c.dryRun then (none, [])
  else if env.renameOk then
    (none, [Effect.renameSnap (goJoin c.destination (ts ++ "_INCOMPLETE"))
      (goJoin c.destination ts)])
  else (some "failed to rename backup directory", [])

/-- Mirror of `Backup.updateLatestLink` (part_000 lines 542-548): remove
any existing pointer (the removal succeeds exactly when the pointer
existed), then create the new symlink.  Note there is no dry-run guard
in the source. -/
def updateLatestLinkM (c : Config) (ts : String) (env : Env) :
    Option String × List Effect :=
  if env.symlinkOk then
    (none, (if env.latestTarget.isSome then [Effect.removeLatest] else []) ++
      [Effect.symlinkLatest ts])
  else
    (some "symlink failed",
      if env.latestTarget.isSome then [Effect.removeLatest] else [])

/-- Mirror of `Backup.cleanupOldBackups` (part_000 lines 550-592) at the
effect level: a read-directory failure is the only error; each selected
victim is removed (removal failures are logged and skipped, so the
attempt list is the observable outcome).  Note there is no dry-run guard
in the source. -/
def cleanupOldBackupsM (c : Config) (env : Env) : Option String × List Effect :=
  if c.keep ≤ 0 then (none, [])
  else
    match env.destEntries with
    | none => (some "failed to read destination directory", [])
    | some entries => (none, (cleanupRemoved c.keep entries).map Effect.removeBackup)

/-- The locked phase of `Backup.Run` (part_000 lines 183-226): logging,
binary resolution, transfer, verification, finalization, pointer
republish and retention, with the source's propagation policy (cleanup
failure is only logged). -/
def runLocked (c : Config) (ts : String) (env : Env) :
    Except String Unit × List Effect :=
  if !env.logSetupOk then (.error "failed to setup logging", [])
  else
    match findRsync c.forceSystemRsync c.rsyncBin env.homebrewArmExists
      env.usrLocalExists env.usrBinExists env.version with
    | .error e => (.error ("failed to find rsync: " ++ e), [Effect.openLog])
    | .ok _ =>
      let args := buildRsyncArgs ⟨c, env.version, env.goos,
        getLastBackup env.latestTarget, env.lastBackupPathExists,
        env.excludeListExists, ts⟩
      if !env.rsyncOk then (.error "rsync failed", [Effect.openLog, Effect.runRsync args])
      else
        match verifyBackupM c env with
        | some e => (.error ("backup verification failed: " ++ e),
            [Effect.openLog, Effect.runRsync args])
        | none =>
          match finalizeBackupM c ts env with
          | (some e, fx) => (.error ("failed to finalize backup: " ++ e),
              [Effect.openLog, Effect.runRsync args] ++ fx)
          | (none, fxF) =>
            match updateLatestLinkM c ts env with
            | (some e, fxU) => (.error ("failed to update latest link: " ++ e),
                [Effect.openLog, Effect.runRsync args] ++ fxF ++ fxU)
            | (none, fxU) =>
              match cleanupOldBackupsM c env with
              | (_, fxC) =>
                (.ok (), [Effect.openLog, Effect.runRsync args] ++ fxF ++ fxU ++ fxC)

/-- Mirror of `Backup.Run` (part_000 lines 153-227): validation, path
checks, disk guard, lock acquisition, then the locked phase with the
deferred lock release appended on every exit path after acquisition.
The signal-handler task (lines 159-165) is concurrency outside this
sequential model. -/
def Run (c : Config) (ts : String) (env : Env) :
    Except String Unit × List Effect :=
  match validateConfig c with
  | some e => (.error ("config validation failed: " ++ e), [])
  | none =>
    match validatePathsM c env with
    | (some e, fx) => (.error ("path validation failed: " ++ e), fx)
    | (none, fx) =>
      match diskErrMsg (checkDiskSpace c.destination c.cleanupAtPercent env.dfOut) with
      | some e => (.error ("disk space check failed: " ++ e), fx)
      | none =>
        match createLockM c env with
        | (some e, fxL) => (.error ("failed to create lock: " ++ e), fx ++ fxL)
        | (none, fxL) =>
          match runLocked c ts env with
          | (r, fxR) => (r, fx ++ fxL ++ fxR ++ [Effect.removeLock])

/-- Exit code of `main` (part_000 lines 61-65): zero exactly when `Run`
returns nil. -/
def mainExitCode (c : Config) (ts : String) (env : Env) : Nat :=
  match (Run c ts env).1 with
  | .ok _ => 0
  | .error _ => 1
/-- Substring occurrence on character lists: the pattern is a prefix of
some suffix of the text. -/
def listInfix (pat : List Char) : List Char → Bool
  | [] => pat.isPrefixOf []
  | c :: rest => pat.isPrefixOf (c :: rest) || listInfix pat rest

/-- Model of Go `strings.Contains` for an arbitrary pattern, used to
state containment the way claim C9 phrases it. -/
def strContains (t pat : String) : Bool := listInfix pat.data t.data

/-- Candidate set following claim C3's words: children that are not the
pointer entry and do not carry the incomplete suffix — without the
directory requirement the code imposes. -/
def claimCandidates (entries : List FsEntry) : List String :=
  (entries.filter
    (fun e => !(e.name == "latest") && !(hasIncompleteSuffix e.name))).map
    (fun e => e.name)

/-- Version comparison following claim C7's words: the triple
`(a, b, c)` is below the triple `(x, y, z)` in the usual version
order. -/
def semverBelow (a b c x y z : Int) : Prop :=
  a < x ∨ (a = x ∧ (b < y ∨ (b = y ∧ c < z)))

/-- Destination listing with a plain (non-directory) child `a` next to
two snapshot directories, used to settle claim C3. -/
def c3Entries : List FsEntry := [⟨"a", false⟩, ⟨"b", true⟩, ⟨"c", true⟩]

/-- A winter run start time: timezone abbreviation CET. -/
def c4Winter : RunTime := ⟨"CET", 2024, 1, 15, 12, 0, 0⟩

/-- A later, summer run start time on the same machine: daylight saving
switches the abbreviation to CEST. -/
def c4Summer : RunTime := ⟨"CEST", 2024, 7, 15, 12, 0, 0⟩

/-- A local-destination configuration used by the concrete run
scenarios; retention 1, dry run off. -/
def cStd : Config :=
  { source := "/data", destination := "/backup", keep := 1,
    cleanupAtPercent := 90, excludeList := "", logFile := "/var/log/backup.log",
    lockFile := "/tmp/backup.lock", dryRun := false, forceSystemRsync := false,
    showProgress := false, rsyncBin := "" }

/-- The same configuration with the dry-run flag set. -/
def cDry : Config := { cStd with dryRun := true }

/-- Usage report with fifty percent used: passes a threshold of 90. -/
def df50 : String :=
  "Filesystem Size Used Avail Use% Mounted\n/dev/sda1 100G 50G 50G 50% /backup"

/-- Usage report with ninety-six percent used: the spec's end-to-end
disk-guard scenario against a threshold of 95. -/
def df96 : String :=
  "Filesystem Size Used Avail Use% Mounted\n/dev/sda1 100G 96G 4G 96% /backup"

/-- An environment in which every probe and step succeeds: ample disk,
no competing lock, a modern system rsync, and a destination already
holding two finalized snapshots plus the pointer. -/
def envAllOk : Env :=
  { mkdirDestOk := true, sourceExists := true, dfSourceOk := true, dfDestOk := true,
    dfOut := some df50, lockPreExists := false, lockCreateOk := true,
    logSetupOk := true, homebrewArmExists := false, usrLocalExists := false,
    usrBinExists := true, version := some "3.2.7", goos := "linux",
    latestTarget := some "CET_2024-01-01_00.00.00", lastBackupPathExists := true,
    excludeListExists := false, rsyncOk := true, snapDirRead := some 3,
    renameOk := true, symlinkOk := true,
    destEntries := some [⟨"CET_2023-01-01_00.00.00", true⟩,
      ⟨"CET_2024-01-01_00.00.00", true⟩, ⟨"latest", false⟩] }

/-- Argument-assembly input: no prior snapshot, no exclusion file, local
paths, modern rsync on linux. -/
def c5InputA : ArgsInput :=
  ⟨cStd, some "3.2.7", "linux", "(none)", false, false, "CET_2024-01-15_12.00.00"⟩

/-- The same input as `c5InputA` except for the run timestamp. -/
def c5InputB : ArgsInput :=
  { c5InputA with timestamp := "CET_2024-01-16_12.00.00" }

/-- Captured rsync output containing the byte line quoted by claim C9
behind an earlier line that the first pattern also matches. -/
def c9Text : String :=
  "Total transferred file size: 12 bytes then Total transferred file size: 1,073,741,824 bytes"

theorem lexLt_irrefl (l : List Char) : lexLt l l = false := by
  induction l with
  | nil => rfl
  | cons a as ih => simp [lexLt, lt_irrefl, ih]

theorem lexLt_asymm : ∀ (a b : List Char), lexLt a b = true → lexLt b a = false := by
  intro a
  induction a with
  | nil =>
    intro b h
    cases b with
    | nil => simp [lexLt] at h
    | cons y ys => simp [lexLt]
  | cons x xs ih =>
    intro b h
    cases b with
    | nil => simp [lexLt] at h
    | cons y ys =>
      simp only [lexLt] at h ⊢
      by_cases hxy : x < y
      · rw [if_neg (lt_asymm hxy), if_pos hxy]
      · by_cases hyx : y < x
        · simp [hxy, hyx] at h
        · simp only [hxy, hyx, if_false] at h
          simp only [hyx, hxy, if_false]
          exact ih ys h

theorem lexLt_trans :
    ∀ (a b c : List Char), lexLt a b = true → lexLt b c = true → lexLt a c = true := by
  intro a
  induction a with
  | nil =>
    intro b c hab hbc
    cases c with
    | nil =>
      cases b with
      | nil => simp [lexLt] at hab
      | cons y ys => simp [lexLt] at hbc
    | cons z zs => simp [lexLt]
  | cons x xs ih =>
    intro b c hab hbc
    cases b with
    | nil => simp [lexLt] at hab
    | cons y ys =>
      cases c with
      | nil => simp [lexLt] at hbc
      | cons z zs =>
        simp only [lexLt] at hab hbc ⊢
        by_cases hxy : x < y
        · by_cases hyz : y < z
          · rw [if_pos (lt_trans hxy hyz)]
          · by_cases hzy : z < y
            · simp [hyz, hzy] at hbc
            · have hyzEq : y = z := le_antisymm (not_lt.mp hzy) (not_lt.mp hyz)
              rw [if_pos (hyzEq ▸ hxy)]
        · by_cases hyx : y < x
          · simp [hxy, hyx] at hab
          · have hxyEq : x = y := le_antisymm (not_lt.mp hyx) (not_lt.mp hxy)
            subst hxyEq
            simp only [hxy, lt_irrefl, if_false] at hab
            by_cases hxz : x < z
            · rw [if_pos hxz]
            · by_cases hzx : z < x
              · simp [hxz, hzx] at hbc
              · simp only [hxz, hzx, if_false] at hbc ⊢
                exact ih ys zs hab hbc

theorem lexLt_eq_of_not :
    ∀ (a b : List Char), lexLt a b = false → lexLt b a = false → a = b := by
  intro a
  induction a with
  | nil =>
    intro b hab _
    cases b with
    | nil => rfl
    | cons y ys => simp [lexLt] at hab
  | cons x xs ih =>
    intro b hab hba
    cases b with
    | nil => simp [lexLt] at hba
    | cons y ys =>
      simp only [lexLt] at hab hba
      by_cases hxy : x < y
      · simp [hxy] at hab
      · by_cases hyx : y < x
        · simp [hyx, lt_asymm hyx] at hba
        · have hxyEq : x = y := le_antisymm (not_lt.mp hyx) (not_lt.mp hxy)
          subst hxyEq
          simp only [lt_irrefl, if_false] at hab hba
          rw [ih ys hab hba]

theorem strLt_irrefl (s : String) : strLt s s = false := lexLt_irrefl s.data

theorem strLt_asymm {a b : String} (h : strLt a b = true) : strLt b a = false :=
  lexLt_asymm a.data b.data h

theorem strLt_trans {a b c : String} (h1 : strLt a b = true) (h2 : strLt b c = true) :
    strLt a c = true :=
  lexLt_trans a.data b.data c.data h1 h2

theorem strLt_eq_of_not {a b : String} (h1 : strLt a b = false) (h2 : strLt b a = false) :
    a = b := by
  have h : a.data = b.data := lexLt_eq_of_not a.data b.data h1 h2
  cases a
  cases b
  exact congrArg String.mk h

theorem strLe_refl (s : String) : strLe s s := strLt_irrefl s

theorem strLe_of_lt {a b : String} (h : strLt a b = true) : strLe a b := strLt_asymm h

theorem strLe_trans {a b c : String} (h1 : strLe a b) (h2 : strLe b c) : strLe a c := by
  unfold strLe at h1 h2 ⊢
  cases hca : strLt c a with
  | false => rfl
  | true =>
    cases hcb : strLt c b with
    | true => exact absurd hcb (by simp [h2])
    | false =>
      cases hbc : strLt b c with
      | true => exact absurd (strLt_trans hbc hca) (by simp [h1])
      | false =>
        have : b = c := strLt_eq_of_not hbc hcb
        subst this
        exact absurd hca (by simp [h1])

theorem innerLoop_length (x : String) (l : List String) :
    (innerLoop x l).2.length = l.length := by
  induction l generalizing x with
  | nil => rfl
  | cons y ys ih =>
    simp only [innerLoop]
    split <;> simp [ih]

theorem innerLoop_perm (x : String) (l : List String) :
    List.Perm ((innerLoop x l).1 :: (innerLoop x l).2) (x :: l) := by
  induction l generalizing x with
  | nil => simp [innerLoop]
  | cons y ys ih =>
    simp only [innerLoop]
    split
    · exact (List.Perm.swap x _ _).trans ((ih y).cons x)
    · exact ((List.Perm.swap y _ _).trans ((ih x).cons y)).trans (List.Perm.swap x y ys)

theorem innerLoop_fst_le (x : String) (l : List String) :
    strLe (innerLoop x l).1 x ∧ ∀ a ∈ l, strLe (innerLoop x l).1 a := by
  induction l generalizing x with
  | nil => exact ⟨strLe_refl x, by simp⟩
  | cons y ys ih =>
    simp only [innerLoop]
    split
    · rename_i hyx
      refine ⟨strLe_trans (ih y).1 (strLe_of_lt hyx), ?_⟩
      intro a ha
      rcases List.mem_cons.mp ha with rfl | ha
      · exact (ih a).1
      · exact (ih y).2 a ha
    · rename_i hyx
      have hyxF : strLt y x = false := by
        cases h : strLt y x with
        | false => rfl
        | true => exact absurd h hyx
      refine ⟨(ih x).1, ?_⟩
      intro a ha
      rcases List.mem_cons.mp ha with rfl | ha
      · exact strLe_trans (ih x).1 hyxF
      · exact (ih x).2 a ha

theorem innerLoop_fst_le_all (x : String) (l : List String) :
    ∀ a ∈ x :: l, strLe (innerLoop x l).1 a := by
  intro a ha
  rcases List.mem_cons.mp ha with rfl | ha
  · exact (innerLoop_fst_le a l).1
  · exact (innerLoop_fst_le x l).2 a ha

theorem selSortFuel_perm :
    ∀ (fuel : Nat) (l : List String), l.length ≤ fuel →
      List.Perm (selSortFuel fuel l) l := by
  intro fuel
  induction fuel with
  | zero =>
    intro l hl
    cases l with
    | nil => simp [selSortFuel]
    | cons x xs => simp at hl
  | succ n ih =>
    intro l hl
    cases l with
    | nil => simp [selSortFuel]
    | cons x xs =>
      have h2 : (innerLoop x xs).2.length ≤ n := by
        rw [innerLoop_length]
        simp only [List.length_cons] at hl
        omega
      exact ((ih _ h2).cons _).trans (innerLoop_perm x xs)

theorem selSortFuel_sorted :
    ∀ (fuel : Nat) (l : List String), l.length ≤ fuel →
      (selSortFuel fuel l).Pairwise strLe := by
  intro fuel
  induction fuel with
  | zero =>
    intro l _
    cases l with
    | nil => simp [selSortFuel]
    | cons x xs => simp [selSortFuel]
  | succ n ih =>
    intro l hl
    cases l with
    | nil => simp [selSortFuel]
    | cons x xs =>
      have h2 : (innerLoop x xs).2.length ≤ n := by
        rw [innerLoop_length]
        simp only [List.length_cons] at hl
        omega
      refine List.pairwise_cons.mpr ⟨?_, ih _ h2⟩
      intro b hb
      have hb2 : b ∈ (innerLoop x xs).2 := (selSortFuel_perm n _ h2).mem_iff.mp hb
      have hbx : b ∈ x :: xs :=
        (innerLoop_perm x xs).mem_iff.mp (List.mem_cons_of_mem _ hb2)
      exact innerLoop_fst_le_all x xs b hbx

theorem selSort_perm (l : List String) : List.Perm (selSort l) l :=
  selSortFuel_perm l.length l le_rfl

theorem selSort_sorted (l : List String) : (selSort l).Pairwise strLe :=
  selSortFuel_sorted l.length l le_rfl

theorem isSSHPath_eq_true (dest : String) :
    isSSHPath dest = true ↔
      (strContainsChar dest '@' = true ∧ strContainsChar dest ':' = true) := by
  unfold isSSHPath
  rw [Bool.and_eq_true]

theorem checkDiskSpace_parse (dest : String) (th : Int) (out : String)
    (h : isSSHPath dest = false) :
    checkDiskSpace dest th (some out) =
      (match parsedUsagePct out with
       | none => DiskStatus.malformed
       | some u => if th ≤ u then DiskStatus.exceeded u else DiskStatus.passed u) := by
  unfold checkDiskSpace parsedUsagePct
  simp only [h, Bool.false_eq_true, if_false]
  split
  · split
    · rfl
    · split <;> rfl
  · rfl

/-- Claim C8: the disk-space check is skipped (succeeds without probing)
exactly when the destination contains both an `@` and a `:` character;
otherwise it fails with the threshold-exceeded error if and only if the
parsed percentage-used figure is at least the configured threshold, and
a usage report that cannot be parsed (too few lines, too few fields, or
a non-numeric percentage — the cases where `parsedUsagePct` is `none`)
yields a parse error rather than success. -/
theorem c8_disk_guard_characterization (dest : String) (th : Int)
    (dfOut : Option String) :
    (checkDiskSpace dest th dfOut = .skipped ↔
      (strContainsChar dest '@' = true ∧ strContainsChar dest ':' = true)) ∧
    (∀ u, checkDiskSpace dest th dfOut = .exceeded u ↔
      (isSSHPath dest = false ∧
        ∃ out, dfOut = some out ∧ parsedUsagePct out = some u ∧ th ≤ u)) ∧
    (∀ out, isSSHPath dest = false → dfOut = some out → parsedUsagePct out = none →
      checkDiskSpace dest th dfOut = .malformed) ∧
    (∀ u, checkDiskSpace dest th dfOut = .passed u ↔
      (isSSHPath dest = false ∧
        ∃ out, dfOut = some out ∧ parsedUsagePct out = some u ∧ u < th)) := by
  by_cases hssh : isSSHPath dest = true
  · have hcheck : checkDiskSpace dest th dfOut = .skipped := by
      unfold checkDiskSpace
      simp [hssh]
    refine ⟨?_, ?_, ?_, ?_⟩
    · simp [hcheck, (isSSHPath_eq_true dest).mp hssh]
    · intro u
      simp [hcheck, hssh]
    · intro out hfalse
      exact absurd hssh (by simp [hfalse])
    · intro u
      simp [hcheck, hssh]
  · have hf : isSSHPath dest = false := by
      cases h2 : isSSHPath dest with
      | false => rfl
      | true => exact absurd h2 hssh
    have hiff : ¬ (strContainsChar dest '@' = true ∧ strContainsChar dest ':' = true) :=
      fun hc => hssh ((isSSHPath_eq_true dest).mpr hc)
    cases dfOut with
    | none =>
      have hcheck : checkDiskSpace dest th none = .cmdFailed := by
        unfold checkDiskSpace
        simp [hf]
      refine ⟨?_, ?_, ?_, ?_⟩
      · simp [hcheck, hiff]
      · intro u
        simp [hcheck]
      · intro out _ hsome
        exact absurd hsome (by simp)
      · intro u
        simp [hcheck]
    | some out =>
      have hp := checkDiskSpace_parse dest th out hf
      cases hu : parsedUsagePct out with
      | none =>
        rw [hu] at hp
        have hm : checkDiskSpace dest th (some out) = DiskStatus.malformed := hp
        refine ⟨?_, ?_, ?_, ?_⟩
        · simp [hm, hiff]
        · intro u
          simp [hm, hu]
        · intro out2 _ heq _
          cases heq
          exact hm
        · intro u
          simp [hm, hu]
      | some v =>
        rw [hu] at hp
        have hv : checkDiskSpace dest th (some out) =
            (if th ≤ v then DiskStatus.exceeded v else DiskStatus.passed v) := hp
        by_cases hth : th ≤ v
        · rw [if_pos hth] at hv
          refine ⟨?_, ?_, ?_, ?_⟩
          · simp [hv, hiff]
          · intro u
            constructor
            · intro he
              rw [hv] at he
              cases he
              exact ⟨hf, out, rfl, hu, hth⟩
            · rintro ⟨_, out2, heq, hu2, hth2⟩
              cases heq
              rw [hu] at hu2
              cases hu2
              exact hv
          · intro out2 _ heq h2
            cases heq
            rw [hu] at h2
            cases h2
          · intro u
            constructor
            · intro he
              rw [hv] at he
              cases he
            · rintro ⟨_, out2, heq, hu2, hlt⟩
              cases heq
              rw [hu] at hu2
              cases hu2
              omega
        · rw [if_neg hth] at hv
          refine ⟨?_, ?_, ?_, ?_⟩
          · simp [hv, hiff]
          · intro u
            constructor
            · intro he
              rw [hv] at he
              cases he
            · rintro ⟨_, out2, heq, hu2, hth2⟩
              cases heq
              rw [hu] at hu2
              cases hu2
              omega
          · intro out2 _ heq h2
            cases heq
            rw [hu] at h2
            cases h2
          · intro u
            constructor
            · intro he
              rw [hv] at he
              cases he
              exact ⟨hf, out, rfl, hu, by omega⟩
            · rintro ⟨_, out2, heq, hu2, _⟩
              cases heq
              rw [hu] at hu2
              cases hu2
              exact hv

theorem c8_disk_guard_characterization_witness :
    checkDiskSpace "/backup" 95 (some df96) = .exceeded 96 ∧
    checkDiskSpace "user@host:/backup" 95 none = .skipped ∧
    checkDiskSpace "/backup" 95 (some "junk") = .malformed := by
  refine ⟨?_, ?_, ?_⟩
  · exact ((c8_disk_guard_characterization "/backup" 95 (some df96)).2.1 96).mpr
      ⟨by decide, df96, rfl, by decide, by decide⟩
  · exact (c8_disk_guard_characterization "user@host:/backup" 95 none).1.mpr
      ⟨by decide, by decide⟩
  · exact (c8_disk_guard_characterization "/backup" 95 (some "junk")).2.2.1 "junk"
      (by decide) rfl (by decide)

/-- Claim C3 counterexample: under the claim's own candidate notion
(children that are not the pointer entry and do not carry the incomplete
suffix, with no directory requirement), the listing `c3Entries` has
three candidates, so with retention 2 the claim requires exactly one
deletion; the code's prune pass, which additionally requires `IsDir`,
deletes nothing. -/
theorem c3_non_directory_child_not_pruned :
    (claimCandidates c3Entries).length = 3 ∧
    (2 : Int) < ((claimCandidates c3Entries).length : Int) ∧
    cleanupRemoved 2 c3Entries = [] := by decide

/-- Claim C3 (amended: candidates are child directories — the code
filters with `IsDir` — that are not the pointer entry and lack the
incomplete suffix): with retention K at least 1, a prune pass deletes
nothing when at most K candidates exist, and otherwise removed and
surviving names partition the candidates, exactly count − K names are
removed, K survive, every removed name is lexically at most every
survivor, and strictly below it when the (distinct) listing has no
duplicate names — so the survivors are exactly the K lexically greatest
candidates. -/
theorem c3_prune_keeps_lexically_greatest_directories
    (keep : Int) (entries : List FsEntry) (hk : 1 ≤ keep) :
    (((backupCandidates entries).length : Int) ≤ keep →
      cleanupRemoved keep entries = []) ∧
    List.Perm (cleanupRemoved keep entries ++ cleanupSurvivors keep entries)
      (backupCandidates entries) ∧
    (cleanupRemoved keep entries).length =
      (backupCandidates entries).length - keep.toNat ∧
    (keep.toNat ≤ (backupCandidates entries).length →
      (cleanupSurvivors keep entries).length = keep.toNat) ∧
    (∀ x ∈ cleanupRemoved keep entries, ∀ y ∈ cleanupSurvivors keep entries,
      strLe x y) ∧
    ((backupCandidates entries).Nodup →
      ∀ x ∈ cleanupRemoved keep entries, ∀ y ∈ cleanupSurvivors keep entries,
        strLt x y = true) := by
  have hk0 : ¬ (keep ≤ 0) := by omega
  by_cases hc : ((backupCandidates entries).length : Int) ≤ keep
  · have hR : cleanupRemoved keep entries = [] := by
      unfold cleanupRemoved
      rw [if_neg hk0, if_pos hc]
    have hS : cleanupSurvivors keep entries = backupCandidates entries := by
      unfold cleanupSurvivors
      rw [if_neg hk0, if_pos hc]
    have hlen : (backupCandidates entries).length ≤ keep.toNat := by omega
    refine ⟨fun _ => hR, ?_, ?_, ?_, ?_, ?_⟩
    · rw [hR, hS]
      exact List.Perm.refl _
    · rw [hR]
      simp only [List.length_nil]
      omega
    · intro hge
      rw [hS]
      omega
    · intro x hx
      rw [hR] at hx
      exact absurd hx (List.not_mem_nil x)
    · intro _ x hx
      rw [hR] at hx
      exact absurd hx (List.not_mem_nil x)
  · have hR : cleanupRemoved keep entries =
        (selSort (backupCandidates entries)).take
          ((backupCandidates entries).length - keep.toNat) := by
      unfold cleanupRemoved
      rw [if_neg hk0, if_neg hc]
    have hS : cleanupSurvivors keep entries =
        (selSort (backupCandidates entries)).drop
          ((backupCandidates entries).length - keep.toNat) := by
      unfold cleanupSurvivors
      rw [if_neg hk0, if_neg hc]
    have hlenS : (selSort (backupCandidates entries)).length =
        (backupCandidates entries).length := (selSort_perm _).length_eq
    have hkn : keep.toNat ≤ (backupCandidates entries).length := by omega
    have hle : ∀ x ∈ cleanupRemoved keep entries,
        ∀ y ∈ cleanupSurvivors keep entries, strLe x y := by
      intro x hx y hy
      rw [hR] at hx
      rw [hS] at hy
      have hsorted : ((selSort (backupCandidates entries)).take
            ((backupCandidates entries).length - keep.toNat) ++
          (selSort (backupCandidates entries)).drop
            ((backupCandidates entries).length - keep.toNat)).Pairwise strLe := by
        rw [List.take_append_drop]
        exact selSort_sorted _
      exact (List.pairwise_append.mp hsorted).2.2 x hx y hy
    refine ⟨fun h => absurd h hc, ?_, ?_, ?_, hle, ?_⟩
    · rw [hR, hS, List.take_append_drop]
      exact selSort_perm _
    · rw [hR, List.length_take, hlenS]
      exact Nat.min_eq_left (by omega)
    · intro _
      rw [hS, List.length_drop, hlenS]
      omega
    · intro hnd x hx y hy
      have hndS : (selSort (backupCandidates entries)).Nodup :=
        ((selSort_perm _).nodup_iff).mpr hnd
      have hne : x ≠ y := by
        rw [hR] at hx
        rw [hS] at hy
        have hpw : ((selSort (backupCandidates entries)).take
              ((backupCandidates entries).length - keep.toNat) ++
            (selSort (backupCandidates entries)).drop
              ((backupCandidates entries).length - keep.toNat)).Pairwise
            (fun a b => a ≠ b) := by
          rw [List.take_append_drop]
          exact hndS
        exact (List.pairwise_append.mp hpw).2.2 x hx y hy
      cases hlt : strLt x y with
      | true => rfl
      | false => exact absurd (strLt_eq_of_not hlt (hle x hx y hy)) hne

theorem c3_prune_keeps_lexically_greatest_directories_witness :
    cleanupRemoved 2 [⟨"T1", true⟩, ⟨"T2", true⟩, ⟨"T3", true⟩] = ["T1"] ∧
    cleanupSurvivors 2 [⟨"T1", true⟩, ⟨"T2", true⟩, ⟨"T3", true⟩] = ["T2", "T3"] ∧
    List.Perm
      (cleanupRemoved 2 [⟨"T1", true⟩, ⟨"T2", true⟩, ⟨"T3", true⟩] ++
        cleanupSurvivors 2 [⟨"T1", true⟩, ⟨"T2", true⟩, ⟨"T3", true⟩])
      (backupCandidates [⟨"T1", true⟩, ⟨"T2", true⟩, ⟨"T3", true⟩]) := by
  refine ⟨by decide, by decide, ?_⟩
  exact (c3_prune_keeps_lexically_greatest_directories 2
    [⟨"T1", true⟩, ⟨"T2", true⟩, ⟨"T3", true⟩] (by decide)).2.1

/-- Claim C4 (code bug): the snapshot-naming scheme is not monotone.
The layout prefixes the timezone abbreviation, so on one machine a
winter timestamp (CET) sorts lexically above a later summer timestamp
(CEST), and the retention sort then deletes the chronologically newest
snapshot: with retention 1 the prune pass removes the summer snapshot
and keeps the older winter one. -/
theorem c4_timezone_prefix_breaks_lexical_chronology :
    chronoBefore c4Winter c4Summer ∧
    backupTimestamp c4Winter = "CET_2024-01-15_12.00.00" ∧
    backupTimestamp c4Summer = "CEST_2024-07-15_12.00.00" ∧
    strLt (backupTimestamp c4Summer) (backupTimestamp c4Winter) = true ∧
    strLt (backupTimestamp c4Winter) (backupTimestamp c4Summer) = false ∧
    cleanupRemoved 1
      [⟨backupTimestamp c4Winter, true⟩,
       ⟨backupTimestamp c4Summer, true⟩] = [backupTimestamp c4Summer] := by
  refine ⟨?_, by decide, by decide, by decide, by decide, by decide⟩
  show chronoKey c4Winter < chronoKey c4Summer
  decide

/-- Claim C5 counterexample: two runs agreeing on configuration, binary
version, platform, remote-path heuristic inputs, prior-snapshot
existence, exclusion-file existence and the dry-run flag, but started at
different times, assemble different argument vectors — the in-progress
destination embeds the run's generated timestamp, which the claim's
input list omits. -/
theorem c5_vector_depends_on_run_timestamp :
    c5InputA.config = c5InputB.config ∧
    c5InputA.version = c5InputB.version ∧
    c5InputA.goos = c5InputB.goos ∧
    c5InputA.lastBackup = c5InputB.lastBackup ∧
    c5InputA.lastBackupPathExists = c5InputB.lastBackupPathExists ∧
    c5InputA.excludeListExists = c5InputB.excludeListExists ∧
    buildRsyncArgs c5InputA ≠ buildRsyncArgs c5InputB := by decide

/-- Claim C5 (amended: the argument vector is a pure, order-stable
function of the claim's inputs plus the run's generated timestamp, which
fixes the in-progress destination): for every input the assembled vector
decomposes, in order, into base flags, remote-transport flags, progress
flag, platform-specific flags, incremental-seed flag, exclusion-file
flag, dry-run flag, and finally the slash-terminated source with the
in-progress destination.  Determinism in the extended input tuple holds
because `buildRsyncArgs` is a function of exactly these inputs. -/
theorem c5_argument_order_fixed (i : ArgsInput) :
    buildRsyncArgs i =
      RsyncBaseArgs ++
      (if isSSHPath i.config.source || isSSHPath i.config.destination then
        RsyncSSHArgs else []) ++
      (if i.config.showProgress then ["--progress"] else []) ++
      (match i.version with
       | some v => if i.goos == "darwin" && !isOldRsync v then RsyncMacOSArgs else []
       | none => []) ++
      (if !(i.lastBackup == "(none)") && i.lastBackupPathExists then
        ["--link-dest=" ++ goJoin i.config.destination i.lastBackup] else []) ++
      (if i.excludeListExists then ["--exclude-from=" ++ i.config.excludeList] else []) ++
      (if i.config.dryRun then ["--dry-run"] else []) ++
      [i.config.source ++ "/",
        goJoin i.config.destination (i.timestamp ++ "_INCOMPLETE")] := by
  unfold buildRsyncArgs
  cases i.version with
  | none => split_ifs <;> simp [List.append_assoc]
  | some v =>
    split_ifs <;> simp [List.append_assoc] <;> split_ifs <;> simp [List.append_assoc]

/-- Claim C7 counterexample: the version string `3.1.999` parses into
the three integers 3, 1, 999 and is below 3.2.0 in version order, yet
`isOldRsync` accepts it (the code compares the weighted sum
3*10000 + 1*100 + 999 = 31099 against 30200), so resolution of the
system-default binary without the force flag succeeds where the claim
requires the incompatible-binary failure. -/
theorem c7_semver_below_min_not_rejected :
    goAtoi "3" = some 3 ∧ goAtoi "1" = some 1 ∧ goAtoi "999" = some 999 ∧
    semverBelow 3 1 999 3 2 0 ∧
    isOldRsync "3.1.999" = false ∧
    findRsync false "" false false true (some "3.1.999") = .ok "/usr/bin/rsync" := by
  refine ⟨by decide, by decide, by decide, ?_, by decide, rfl⟩
  show (3 : Int) < 3 ∨ ((3 : Int) = 3 ∧ ((1 : Int) < 2 ∨ ((1 : Int) = 2 ∧ (999 : Int) < 0)))
  norm_num

/-- Claim C7 (amended: a version is 'too old' exactly as the code
encodes it — the dot-split has fewer than three parts, or the
int64-wrapped sum major*10000 + minor*100 + patch is below 30200, where
each component is Go's `Atoi` with the error discarded: 0 when
syntactically invalid, the saturated MaxInt64 or MinInt64 when out of
the 64-bit range; this coincides with 'below 3.2.0' whenever minor and
patch are below 100 and the sum stays within int64): resolution fails
with the incompatible-binary error exactly when the selected binary is
the system-default path, the force flag is not set, and the version
probe succeeded with a too-old string; when the force flag is set,
resolution pins the system path and performs no version check (the
result is the same for every version oracle). -/
theorem c7_incompatible_binary_characterization
    (force : Bool) (bin0 : String) (p1 p2 p3 : Bool) (version : Option String) :
    (force = true → findRsync force bin0 p1 p2 p3 version = .ok "/usr/bin/rsync") ∧
    (force = false →
      (findRsync force bin0 p1 p2 p3 version = .error incompatibleRsyncMsg ↔
        (resolvedBin bin0 p1 p2 p3 = "/usr/bin/rsync" ∧
          ∃ v, version = some v ∧ isOldRsync v = true))) := by
  constructor
  · intro hforce
    subst hforce
    rfl
  · intro hforce
    subst hforce
    by_cases hb1 : resolvedBin bin0 p1 p2 p3 = ""
    · have hval : findRsync false bin0 p1 p2 p3 version = .error "no rsync binary found" := by
        simp [findRsync, hb1]
      constructor
      · intro h
        rw [hval] at h
        injection h with hmsg
        exact absurd hmsg (by decide)
      · rintro ⟨hsys, _⟩
        rw [hb1] at hsys
        exact absurd hsys (by decide)
    · by_cases hb2 : resolvedBin bin0 p1 p2 p3 = "/usr/bin/rsync"
      · cases version with
        | none =>
          have hval : findRsync false bin0 p1 p2 p3 none = .ok "/usr/bin/rsync" := by
            simp [findRsync, hb1, hb2]
          constructor
          · intro h
            rw [hval] at h
            exact absurd h (by simp)
          · rintro ⟨_, v, hv, _⟩
            exact Option.noConfusion hv
        | some v =>
          cases hold : isOldRsync v with
          | true =>
            have hval : findRsync false bin0 p1 p2 p3 (some v) =
                .error incompatibleRsyncMsg := by
              simp [findRsync, hb1, hb2, hold]
            exact ⟨fun _ => ⟨hb2, v, rfl, hold⟩, fun _ => hval⟩
          | false =>
            have hval : findRsync false bin0 p1 p2 p3 (some v) = .ok "/usr/bin/rsync" := by
              simp [findRsync, hb1, hb2, hold]
            constructor
            · intro h
              rw [hval] at h
              exact absurd h (by simp)
            · rintro ⟨_, v2, hv2, hold2⟩
              injection hv2 with hv2'
              subst hv2'
              rw [hold] at hold2
              exact absurd hold2 (by simp)
      · have hval : findRsync false bin0 p1 p2 p3 version =
            .ok (resolvedBin bin0 p1 p2 p3) := by
          simp [findRsync, hb1, hb2]
        constructor
        · intro h
          rw [hval] at h
          exact absurd h (by simp)
        · rintro ⟨hsys, _⟩
          exact absurd hsys hb2

theorem c7_incompatible_binary_characterization_witness :
    findRsync false "" false false true (some "2.6.9") = .error incompatibleRsyncMsg ∧
    findRsync true "" false false false none = .ok "/usr/bin/rsync" := by
  constructor
  · exact ((c7_incompatible_binary_characterization false "" false false true
      (some "2.6.9")).2 rfl).mpr ⟨by decide, "2.6.9", rfl, by decide⟩
  · exact (c7_incompatible_binary_characterization true "" false false false none).1 rfl

/-- Claim C9 counterexample: `c9Text` contains the quoted line
`Total transferred file size: 1,073,741,824 bytes`, but the first
pattern's leftmost match captures the earlier figure 12, so the parsed
figure is 12/1024³ GB, not 1.00 GB. -/
theorem c9_earlier_match_overrides_contained_line :
    strContains c9Text "Total transferred file size: 1,073,741,824 bytes" = true ∧
    parseTransferredBytes c9Text = some 12 ∧
    parseTransferredGB c9Text ≠ 1 := by
  refine ⟨by decide, by decide, ?_⟩
  have hb : parseTransferredBytes c9Text = some 12 := by decide
  unfold parseTransferredGB
  rw [hb]
  show (12 : ℚ) / 1073741824 ≠ 1
  norm_num

/-- Claim C9 (amended: the figure is exactly 1.00 GB for any captured
text in which the first recognized pattern's leftmost match captures
`1,073,741,824` — for instance when the quoted line is the text's only
pattern occurrence; an earlier first-pattern match wins instead):
patterns are tried in a fixed order, commas are stripped, bytes are
divided by 1024³, and a text matching none of the recognized patterns
parses to 0 rather than an error. -/
theorem c9_transfer_stats_extraction (t : String) :
    (findGroup "Total transferred file size: ".data " bytes".data t.data =
        some "1,073,741,824".data →
      parseTransferredGB t = 1) ∧
    (findGroup "Total transferred file size: ".data " bytes".data t.data = none →
      findGroup "sent ".data " bytes".data t.data = none →
      findGroup "total size is ".data "".data t.data = none →
      parseTransferredGB t = 0) := by
  constructor
  · intro h
    have hb : parseTransferredBytes t = some 1073741824 := by
      unfold parseTransferredBytes tryPattern
      rw [h]
      rfl
    unfold parseTransferredGB
    rw [hb]
    show (1073741824 : ℚ) / 1073741824 = 1
    norm_num
  · intro h1 h2 h3
    unfold parseTransferredGB parseTransferredBytes tryPattern
    rw [h1, h2, h3]

theorem c9_transfer_stats_extraction_witness :
    parseTransferredGB "Total transferred file size: 1,073,741,824 bytes" = 1 ∧
    parseTransferredGB "hello" = 0 := by
  constructor
  · exact (c9_transfer_stats_extraction
      "Total transferred file size: 1,073,741,824 bytes").1 (by decide)
  · exact (c9_transfer_stats_extraction "hello").2 (by decide) (by decide) (by decide)

theorem clampConfig_spec (c : Config) :
    1 ≤ (clampConfig c).keep ∧
    50 ≤ (clampConfig c).cleanupAtPercent ∧ (clampConfig c).cleanupAtPercent ≤ 95 ∧
    (clampConfig c).keep = (if c.keep < 1 then 7 else c.keep) ∧
    (clampConfig c).cleanupAtPercent =
      (if c.cleanupAtPercent < 50 ∨ 95 < c.cleanupAtPercent then 90
       else c.cleanupAtPercent) ∧
    (clampConfig c).source = c.source ∧
    (clampConfig c).destination = c.destination := by
  unfold clampConfig
  by_cases h1 : c.keep < 1
  · rw [if_pos h1]
    dsimp only
    by_cases h2 : c.cleanupAtPercent < 50 ∨ 95 < c.cleanupAtPercent
    · rw [if_pos h2]
      dsimp only
      exact ⟨by omega, by omega, by omega, by rw [if_pos h1], by rw [if_pos h2], rfl, rfl⟩
    · rw [if_neg h2]
      dsimp only
      exact ⟨by omega, by omega, by omega, by rw [if_pos h1], by rw [if_neg h2], rfl, rfl⟩
  · rw [if_neg h1]
    by_cases h2 : c.cleanupAtPercent < 50 ∨ 95 < c.cleanupAtPercent
    · rw [if_pos h2]
      dsimp only
      exact ⟨by omega, by omega, by omega, by rw [if_neg h1], by rw [if_pos h2], rfl, rfl⟩
    · rw [if_neg h2]
      exact ⟨by omega, by omega, by omega, by rw [if_neg h1], by rw [if_neg h2], rfl, rfl⟩

/-- Claim C10: configuration loading never rejects out-of-range numeric
values and never reports a malformed file: loading errors exactly when
the resulting source or destination path is empty; a successful load has
retention at least 1 and threshold within 50–95, with a retention below
1 silently replaced by 7 and an out-of-bounds threshold by 90; and an
unreadable or unparseable file silently leaves the built-in default
configuration in place (stated for an arbitrary default `d`, which
subsumes the concrete `DefaultConfig`). -/
theorem c10_load_config_clamps_and_only_path_errors
    (d : Config) (fn : String) (fr : Option (Option ConfigFileData)) :
    ((∃ m, LoadConfig d fn fr = .error m) ↔
      ((loadedBase d fn fr).source = "" ∨ (loadedBase d fn fr).destination = "")) ∧
    (∀ cf, LoadConfig d fn fr = .ok cf →
      1 ≤ cf.keep ∧ 50 ≤ cf.cleanupAtPercent ∧ cf.cleanupAtPercent ≤ 95 ∧
      cf.keep =
        (if (loadedBase d fn fr).keep < 1 then 7 else (loadedBase d fn fr).keep) ∧
      cf.cleanupAtPercent =
        (if (loadedBase d fn fr).cleanupAtPercent < 50 ∨
            95 < (loadedBase d fn fr).cleanupAtPercent then 90
         else (loadedBase d fn fr).cleanupAtPercent) ∧
      cf.source = (loadedBase d fn fr).source ∧
      cf.destination = (loadedBase d fn fr).destination) ∧
    (fn ≠ "" → fr = none ∨ fr = some none → loadedBase d fn fr = d) := by
  refine ⟨?_, ?_, ?_⟩
  · unfold LoadConfig
    by_cases hempty : (loadedBase d fn fr).source = "" ∨
        (loadedBase d fn fr).destination = ""
    · rw [if_pos hempty]
      exact ⟨fun _ => hempty, fun _ => ⟨_, rfl⟩⟩
    · rw [if_neg hempty]
      constructor
      · rintro ⟨m, hm⟩
        exact absurd hm (by simp)
      · intro h
        exact absurd h hempty
  · intro cf hcf
    unfold LoadConfig at hcf
    by_cases hempty : (loadedBase d fn fr).source = "" ∨
        (loadedBase d fn fr).destination = ""
    · rw [if_pos hempty] at hcf
      exact absurd hcf (by simp)
    · rw [if_neg hempty] at hcf
      injection hcf with hcf'
      subst hcf'
      exact clampConfig_spec (loadedBase d fn fr)
  · intro hfn hfr
    unfold loadedBase
    rcases hfr with rfl | rfl <;> simp [hfn]

theorem c10_load_config_clamps_and_only_path_errors_witness :
    (∃ cf, LoadConfig cStd "missing.json" none = .ok cf ∧
      1 ≤ cf.keep ∧ 50 ≤ cf.cleanupAtPercent ∧ cf.cleanupAtPercent ≤ 95) ∧
    loadedBase cStd "missing.json" none = cStd := by
  have h := c10_load_config_clamps_and_only_path_errors cStd "missing.json" none
  constructor
  · cases hlc : LoadConfig cStd "missing.json" none with
    | error m =>
      have := h.1.mp ⟨m, hlc⟩
      rw [h.2.2 (by decide) (Or.inl rfl)] at this
      exact absurd this (by decide)
    | ok cf =>
      have hspec := h.2.1 cf hlc
      exact ⟨cf, rfl, hspec.1, hspec.2.1, hspec.2.2.1⟩
  · exact h.2.2 (by decide) (Or.inl rfl)

/-- Claim C1 (code bug): dry-run mode does not leave the destination
unchanged.  In a fully healthy dry run the orchestrator still succeeds,
skips verification and finalization (no snapshot rename is attempted),
but — because `updateLatestLink` and `cleanupOldBackups` carry no
dry-run guard — it removes and recreates the `latest` pointer (now
dangling, since the snapshot was never materialized) and deletes the
oldest finalized snapshot directory. -/
theorem c1_dry_run_still_republishes_pointer_and_prunes :
    cDry.dryRun = true ∧
    (Run cDry "CET_2024-06-01_12.00.00" envAllOk).1 = .ok () ∧
    Effect.renameSnap (goJoin cDry.destination ("CET_2024-06-01_12.00.00" ++ "_INCOMPLETE"))
      (goJoin cDry.destination "CET_2024-06-01_12.00.00") ∉
      (Run cDry "CET_2024-06-01_12.00.00" envAllOk).2 ∧
    Effect.removeLatest ∈ (Run cDry "CET_2024-06-01_12.00.00" envAllOk).2 ∧
    Effect.symlinkLatest "CET_2024-06-01_12.00.00" ∈
      (Run cDry "CET_2024-06-01_12.00.00" envAllOk).2 ∧
    Effect.removeBackup "CET_2023-01-01_00.00.00" ∈
      (Run cDry "CET_2024-06-01_12.00.00" envAllOk).2 := by
  refine ⟨rfl, rfl, by decide, by decide, by decide, by decide⟩

/-- Claim C2 counterexample: in a run whose snapshot has been
successfully finalized (the rename effect is in the trace), a failing
pointer republish makes the whole run fail — `Run` returns the
update-latest-link error and the process exits 1, where the claim
requires a post-success warning and exit 0. -/
theorem c2_publish_failure_aborts_run :
    Effect.renameSnap (goJoin cStd.destination ("CET_2024-06-01_12.00.00" ++ "_INCOMPLETE"))
      (goJoin cStd.destination "CET_2024-06-01_12.00.00") ∈
      (Run cStd "CET_2024-06-01_12.00.00" ({envAllOk with symlinkOk := false})).2 ∧
    (Run cStd "CET_2024-06-01_12.00.00" ({envAllOk with symlinkOk := false})).1 =
      .error "failed to update latest link: symlink failed" ∧
    mainExitCode cStd "CET_2024-06-01_12.00.00" ({envAllOk with symlinkOk := false}) = 1 := by
  refine ⟨by decide, rfl, rfl⟩

/-- Claim C2 (amended: after successful finalization only a retention
failure is surfaced as a warning without changing the outcome — the run
still returns success and exits 0 whatever the destination listing
oracle yields, including a read failure; a failure to republish the
`latest` pointer, by contrast, aborts the run with an error and exit
1). -/
theorem c2_retention_warning_but_publish_fatal
    (c : Config) (ts : String) (env : Env)
    (hv : validateConfig c = none)
    (hmk : env.mkdirDestOk = true) (hsrc : env.sourceExists = true)
    (hdfs : env.dfSourceOk = true) (hdfd : env.dfDestOk = true)
    (hdisk : diskErrMsg (checkDiskSpace c.destination c.cleanupAtPercent env.dfOut) = none)
    (hlk1 : env.lockPreExists = false) (hlk2 : env.lockCreateOk = true)
    (hlog : env.logSetupOk = true)
    (hbin : ∃ b, findRsync c.forceSystemRsync c.rsyncBin env.homebrewArmExists
      env.usrLocalExists env.usrBinExists env.version = Except.ok b)
    (hrs : env.rsyncOk = true)
    (hver : verifyBackupM c env = none)
    (hfin : (finalizeBackupM c ts env).1 = none) :
    (env.symlinkOk = true →
      (Run c ts env).1 = .ok () ∧ mainExitCode c ts env = 0) ∧
    (env.symlinkOk = false →
      (Run c ts env).1 = .error "failed to update latest link: symlink failed" ∧
      mainExitCode c ts env = 1) := by
  obtain ⟨b, hb⟩ := hbin
  have hpath : validatePathsM c env = (none, [Effect.mkdirDest]) := by
    simp [validatePathsM, hmk, hsrc, hdfs, hdfd]
  have hlock : createLockM c env = (none, [Effect.createLock]) := by
    simp [createLockM, hlk1, hlk2]
  have hfe : finalizeBackupM c ts env = (none, (finalizeBackupM c ts env).2) :=
    Prod.ext hfin rfl
  constructor
  · intro hsym
    have hupd : updateLatestLinkM c ts env =
        (none, (if env.latestTarget.isSome then [Effect.removeLatest] else []) ++
          [Effect.symlinkLatest ts]) := by
      simp [updateLatestLinkM, hsym]
    have hrun : (Run c ts env).1 = .ok () := by
      simp only [Run, runLocked, hv, hpath, hdisk, hlock, hlog, hb, hrs, hver,
        Bool.not_true, Bool.false_eq_true, if_false]
      rw [hfe, hupd]
    exact ⟨hrun, by simp [mainExitCode, hrun]⟩
  · intro hsym
    have hupd : updateLatestLinkM c ts env =
        (some "symlink failed",
          if env.latestTarget.isSome then [Effect.removeLatest] else []) := by
      simp [updateLatestLinkM, hsym]
    have hrun : (Run c ts env).1 =
        .error "failed to update latest link: symlink failed" := by
      simp only [Run, runLocked, hv, hpath, hdisk, hlock, hlog, hb, hrs, hver,
        Bool.not_true, Bool.false_eq_true, if_false]
      rw [hfe, hupd]
      rfl
    exact ⟨hrun, by simp [mainExitCode, hrun]⟩

theorem c2_retention_warning_but_publish_fatal_witness :
    (Run cStd "CET_2024-06-01_12.00.00" ({envAllOk with destEntries := none})).1 =
      .ok () ∧
    mainExitCode cStd "CET_2024-06-01_12.00.00"
      ({envAllOk with destEntries := none}) = 0 := by
  exact (c2_retention_warning_but_publish_fatal cStd "CET_2024-06-01_12.00.00"
    ({envAllOk with destEntries := none}) (by decide) (by decide) (by decide)
    (by decide) (by decide) (by decide) (by decide) (by decide) (by decide)
    ⟨"/usr/bin/rsync", rfl⟩ (by decide) (by decide) (by decide)).1 (by decide)

/-- Claim C6: whenever the disk-usage check fails with the
threshold-exceeded result, the run aborts immediately with the disk
error, the lock-creation effect never occurs, and the trace holds only
the destination-creation effect — so no lock directory created by this
run can be left behind. -/
theorem c6_disk_threshold_aborts_before_lock
    (c : Config) (ts : String) (env : Env) (u : Int)
    (hv : validateConfig c = none)
    (hmk : env.mkdirDestOk = true) (hsrc : env.sourceExists = true)
    (hdfs : env.dfSourceOk = true) (hdfd : env.dfDestOk = true)
    (hdisk : checkDiskSpace c.destination c.cleanupAtPercent env.dfOut = .exceeded u) :
    (Run c ts env).1 =
      .error "disk space check failed: disk usage exceeds cleanup threshold" ∧
    Effect.createLock ∉ (Run c ts env).2 ∧
    (Run c ts env).2 = [Effect.mkdirDest] := by
  have hpath : validatePathsM c env = (none, [Effect.mkdirDest]) := by
    simp [validatePathsM, hmk, hsrc, hdfs, hdfd]
  have hrun : Run c ts env =
      (.error "disk space check failed: disk usage exceeds cleanup threshold",
        [Effect.mkdirDest]) := by
    simp only [Run, hv, hpath, hdisk, diskErrMsg]
    rfl
  rw [hrun]
  exact ⟨rfl, by decide, rfl⟩

theorem c6_disk_threshold_aborts_before_lock_witness :
    (Run cStd "CET_2024-06-01_12.00.00" ({envAllOk with dfOut := some df96})).1 =
      .error "disk space check failed: disk usage exceeds cleanup threshold" ∧
    Effect.createLock ∉
      (Run cStd "CET_2024-06-01_12.00.00" ({envAllOk with dfOut := some df96})).2 ∧
    (Run cStd "CET_2024-06-01_12.00.00" ({envAllOk with dfOut := some df96})).2 =
      [Effect.mkdirDest] :=
  c6_disk_threshold_aborts_before_lock cStd "CET_2024-06-01_12.00.00"
    ({envAllOk with dfOut := some df96}) 96 (by decide) (by decide) (by decide)
    (by decide) (by decide) (by decide)
